import Mathlib

/-
Verification of the validitype runtime-validation library.

The repository's engine appears in two source variants inside src/rules.ts
(separated by document markers).  The first variant is embedded below in
namespace `VarA`, the second in `VarB`; shared JavaScript value semantics and
the data model live at top level.  Validators are modelled as functions from
a subject value, an optional error collector and an optional path to an
`Except` result: `Except.error` models a thrown TypeError (property access on
null or undefined), `Except.ok` carries the boolean verdict and the collector
state after any appends.
-/

namespace Validitype

/-- Model of a JavaScript runtime value, covering the shapes the library
inspects.  String exotic own properties other than `length` (character
indices) are not modelled; no claim exercises them. -/
inductive JSValue where
  | vundefined
  | vnull
  | vbool (b : Bool)
  | vnum (n : Int)
  | vstr (s : String)
  | vobj (fields : List (String × JSValue))

/-- Mirrors the ValidationError interface of models.ts: an optional dot path
and a message. -/
structure ValidationError where
  path : Option String
  error : String
deriving DecidableEq

/-- An errorCollector argument: `none` models an omitted collector,
`some l` a collector currently holding the entries `l` in append order. -/
abbrev ErrorCollector := Option (List ValidationError)

abbrev Check := JSValue → Bool

abbrev ErrorMessageBuilder := JSValue → String

/-- Result of invoking a validator: a thrown TypeError, or a verdict plus the
collector after appends. -/
abbrev VResult := Except String (Bool × ErrorCollector)

/-- Mirrors the Validator type of models.ts, with the throw-or-return
behaviour made explicit. -/
abbrev Validator := JSValue → ErrorCollector → Option String → VResult

/-- Appending one entry to the collector when one was supplied
(models `if (errorCollector !== undefined) errorCollector.push(e)`). -/
def pushError (ec : ErrorCollector) (e : ValidationError) : ErrorCollector :=
  ec.map (fun l => l ++ [e])

/-- The JavaScript `typeof` operator on our values (note `typeof null`
is "object"). -/
def typeofString : JSValue → String
  | .vundefined => "undefined"
  | .vnull => "object"
  | .vbool _ => "boolean"
  | .vnum _ => "number"
  | .vstr _ => "string"
  | .vobj _ => "object"

/-- Whether `typeof x === 'object'` holds. -/
def isObjectShaped (x : JSValue) : Bool := typeofString x == "object"

/-- JavaScript template-literal string coercion, as used by the
missing-property message. -/
def jsToString : JSValue → String
  | .vundefined => "undefined"
  | .vnull => "null"
  | .vbool b => if b then "true" else "false"
  | .vnum n => toString n
  | .vstr s => s
  | .vobj _ => "[object Object]"

def lookupField : List (String × JSValue) → String → Option JSValue
  | [], _ => none
  | (k, v) :: rest, key => if k == key then some v else lookupField rest key

/-- Own-property test for non-null, non-undefined values (the semantics of a
successful `x.hasOwnProperty(key)` call). -/
def hasOwnPropertyPure : JSValue → String → Bool
  | .vobj fields, key => (lookupField fields key).isSome
  | .vstr _, key => key == "length"
  | _, _ => false

/-- Property read for non-null, non-undefined values (the semantics of a
successful `x[key]`). -/
def getPropertyPure : JSValue → String → JSValue
  | .vobj fields, key => (lookupField fields key).getD .vundefined
  | .vstr s, key => if key == "length" then .vnum (Int.ofNat s.length) else .vundefined
  | _, _ => .vundefined

/-- Evaluating `x.hasOwnProperty(key)`: a TypeError on null or undefined
(the property access itself throws), the own-property test otherwise. -/
def hasOwnProperty : JSValue → String → Except String Bool
  | .vnull, _ => .error "TypeError: Cannot read properties of null (reading hasOwnProperty)"
  | .vundefined, _ => .error "TypeError: Cannot read properties of undefined (reading hasOwnProperty)"
  | x, key => .ok (hasOwnPropertyPure x key)

/-- Evaluating `x[key]`: a TypeError on null or undefined, the property value
(or undefined) otherwise. -/
def getProperty : JSValue → String → Except String JSValue
  | .vnull, key => .error ("TypeError: Cannot read properties of null (reading " ++ key ++ ")")
  | .vundefined, key => .error ("TypeError: Cannot read properties of undefined (reading " ++ key ++ ")")
  | x, key => .ok (getPropertyPure x key)

/-- JavaScript `Array.prototype.join` with a separator. -/
def joinStrings (sep : String) : List String → String
  | [] => ""
  | [a] => a
  | a :: b :: rest => a ++ sep ++ joinStrings sep (b :: rest)

/-- Mirrors joinObjectPaths of rules.ts: drop undefined segments, join the
rest with a dot. -/
def joinObjectPaths (paths : List (Option String)) : String :=
  joinStrings "." (paths.filterMap id)

/-- JavaScript `path || ''` on an optional string (undefined and the empty
string are both falsy, so both yield the empty string). -/
def pathOrEmpty (path : Option String) : String := path.getD ""

/-- A JavaScript function value carrying a validator, together with which
builder methods have been attached to the function object.  The source
attaches chain methods by mutating the function value; the flags record
which methods are present on it. -/
structure JSFunction where
  call : Validator
  hasWithRule : Bool
  hasWithRuleFor : Bool
  hasWithSubValidator : Bool

/-- A freshly created function expression: no builder methods attached. -/
def plainFunction (v : Validator) : JSFunction :=
  ⟨v, false, false, false⟩

/-- Mirrors optionValidator (identical in both source variants): null
short-circuits to true with no append, anything else delegates to the base
validator with the same collector and path.  The source returns a plain
arrow function, so no builder methods are attached to the result. -/
def optionValidator (baseValidator : Validator) : JSFunction :=
  plainFunction (fun x errorCollector path =>
    match x with
    | .vnull => .ok (true, errorCollector)
    | _ => baseValidator x errorCollector path)

namespace VarA

/-- Mirrors the first variant's makeValidatorBuilder: the function object is
given withRule and withRuleFor methods and returned (withSubValidator is not
attached in this variant). -/
def makeValidatorBuilder (f : JSFunction) : JSFunction :=
  ⟨f.call, true, true, f.hasWithSubValidator⟩

/-- Mirrors the first variant's addRule: run the rule, then the base
validator, both with `path || ""`, with no short-circuit; conform iff both
conform. -/
def addRule (baseValidator rule : Validator) : Validator :=
  fun value errorCollector path =>
    match rule value errorCollector (some (pathOrEmpty path)) with
    | .error e => .error e
    | .ok (ruleResult, ec1) =>
      match baseValidator value ec1 (some (pathOrEmpty path)) with
      | .error e => .error e
      | .ok (baseValidatorResult, ec2) => .ok (ruleResult && baseValidatorResult, ec2)

/-- Mirrors the first variant's addSubValidator: guard with
`x.hasOwnProperty && x.hasOwnProperty(key)` (the property access throws on
null and undefined), run the sub-validator on `x[key]` at the extended path
when the property exists, record nonconformance silently when it does not,
then always run the base validator at the original path. -/
def addSubValidator (baseValidator : Validator) (key : String) (subValidator : Validator) :
    Validator :=
  fun x errorCollector path =>
    let subValidatorPath := joinObjectPaths [path, some key]
    let step : VResult :=
      match hasOwnProperty x key with
      | .error e => .error e
      | .ok true =>
        match getProperty x key with
        | .error e => .error e
        | .ok field => subValidator field errorCollector (some subValidatorPath)
      | .ok false => .ok (false, errorCollector)
    match step with
    | .error e => .error e
    | .ok (subValidatorResult, ec1) =>
      match baseValidator x ec1 path with
      | .error e => .error e
      | .ok (baseValidatorResult, ec2) => .ok (subValidatorResult && baseValidatorResult, ec2)

/-- Mirrors the first variant's validatorFor.  With a check and a message
builder it appends one error only when the check fails (note
`errorCollector !== undefined && !valid`), recording the path argument as
given; with either argument missing it always conforms and never appends. -/
def validatorFor (check : Option Check) (errorMessageBuilder : Option ErrorMessageBuilder) :
    JSFunction :=
  match check, errorMessageBuilder with
  | some ck, some emb =>
    makeValidatorBuilder (plainFunction (fun x errorCollector path =>
      let valid := ck x
      .ok (valid, if valid then errorCollector else pushError errorCollector ⟨path, emb x⟩)))
  | _, _ =>
    makeValidatorBuilder (plainFunction (fun _ errorCollector _ => .ok (true, errorCollector)))

/-- The first variant's withRule when called with a pre-built validator
(the errorMessageBuilder argument omitted). -/
def withRuleUsingValidator (b : JSFunction) (rule : JSFunction) : JSFunction :=
  makeValidatorBuilder (plainFunction (addRule b.call rule.call))

/-- The first variant's withRule when called with a (check, messageBuilder)
pair: the pair is wrapped through validatorFor and installed with addRule. -/
def withRuleUsingCheck (b : JSFunction) (check : Check) (emb : ErrorMessageBuilder) :
    JSFunction :=
  makeValidatorBuilder
    (plainFunction (addRule b.call (validatorFor (some check) (some emb)).call))

/-- The first variant's withRuleFor when called with a pre-built
sub-validator. -/
def withRuleForUsingValidator (b : JSFunction) (key : String) (rule : JSFunction) : JSFunction :=
  makeValidatorBuilder (plainFunction (addSubValidator b.call key rule.call))

/-- The first variant's withRuleFor when called with a (check,
messageBuilder) pair: the pair is wrapped through validatorFor and installed
with addSubValidator. -/
def withRuleForUsingCheck (b : JSFunction) (key : String) (check : Check)
    (emb : ErrorMessageBuilder) : JSFunction :=
  makeValidatorBuilder
    (plainFunction (addSubValidator b.call key (validatorFor (some check) (some emb)).call))

end VarA

namespace VarB

/-- Mirrors the second variant's makeValidatorBuilder: withSubValidator,
withRule and withRuleFor are all attached to the function object. -/
def makeValidatorBuilder (f : JSFunction) : JSFunction :=
  ⟨f.call, true, true, true⟩

/-- Mirrors the second variant's addRule: evaluate the check, append one
error at `path || ''` when it fails and a collector is present, then always
run the base validator at the original path; conform iff both conform. -/
def addRule (baseValidator : Validator) (check : Check)
    (errorMessageBuilder : ErrorMessageBuilder) : Validator :=
  fun x errorCollector path =>
    let checkValid := check x
    let ec1 := if checkValid then errorCollector
      else pushError errorCollector ⟨some (pathOrEmpty path), errorMessageBuilder x⟩
    match baseValidator x ec1 path with
    | .error e => .error e
    | .ok (baseValid, ec2) => .ok (checkValid && baseValid, ec2)

/-- The message pushed by the second variant's addRuleFor for a subject
missing the keyed property. -/
def missingPropertyMessage (x : JSValue) (key : String) : String :=
  "Value " ++ jsToString x ++ " does not have a property " ++ key ++ "!"

/-- Mirrors the second variant's addRuleFor.  Subjects with
`typeof x === 'object'` have the keyed property tested via hasOwnProperty
(this call throws on null); when present the check runs on `x[key]` with a
failure error at the dot-extended path, when absent one missing-property
error is appended at `path || ''`.  Subjects of any other typeof leave the
check verdict true but force the overall verdict false through the isObject
conjunct.  The base validator always runs on the whole subject at the
original path. -/
def addRuleFor (baseValidator : Validator) (key : String) (check : Check)
    (errorMessageBuilder : ErrorMessageBuilder) : Validator :=
  fun x errorCollector path =>
    let isObject := isObjectShaped x
    let step : VResult :=
      if isObject then
        match hasOwnProperty x key with
        | .error e => .error e
        | .ok true =>
          match getProperty x key with
          | .error e => .error e
          | .ok field =>
            let checkValid := check field
            .ok (checkValid,
              if checkValid then errorCollector
              else pushError errorCollector
                ⟨some (joinObjectPaths [path, some key]), errorMessageBuilder field⟩)
        | .ok false =>
          .ok (false, pushError errorCollector
            ⟨some (pathOrEmpty path), missingPropertyMessage x key⟩)
      else .ok (true, errorCollector)
    match step with
    | .error e => .error e
    | .ok (checkValid, ec1) =>
      match baseValidator x ec1 path with
      | .error e => .error e
      | .ok (baseValid, ec2) => .ok (isObject && checkValid && baseValid, ec2)

/-- Mirrors the second variant's addSubValidator: `x[key]` is read
unconditionally (throwing on null and undefined subjects), the sub-validator
runs on it at the dot-extended path, then the base validator runs on the
whole subject at the original path. -/
def addSubValidator (baseValidator : Validator) (key : String) (rule : Validator) : Validator :=
  fun x errorCollector path =>
    let subValidatorPath := joinObjectPaths [path, some key]
    match getProperty x key with
    | .error e => .error e
    | .ok field =>
      match rule field errorCollector (some subValidatorPath) with
      | .error e => .error e
      | .ok (subValidatorResult, ec1) =>
        match baseValidator x ec1 path with
        | .error e => .error e
        | .ok (baseValidatorResult, ec2) => .ok (subValidatorResult && baseValidatorResult, ec2)

/-- Mirrors the second variant's validatorFor.  With a check and a message
builder the produced validator evaluates the check and, whenever a collector
is supplied, appends an entry carrying the path argument as given — even
when the check passed; with either argument missing it always conforms and
never appends. -/
def validatorFor (check : Option Check) (errorMessageBuilder : Option ErrorMessageBuilder) :
    JSFunction :=
  match check, errorMessageBuilder with
  | some ck, some emb =>
    makeValidatorBuilder (plainFunction (fun x errorCollector path =>
      .ok (ck x, pushError errorCollector ⟨path, emb x⟩)))
  | _, _ =>
    makeValidatorBuilder (plainFunction (fun _ errorCollector _ => .ok (true, errorCollector)))

/-- The second variant's withRule builder method. -/
def withRule (b : JSFunction) (check : Check) (emb : ErrorMessageBuilder) : JSFunction :=
  makeValidatorBuilder (plainFunction (addRule b.call check emb))

/-- The second variant's withRuleFor builder method. -/
def withRuleFor (b : JSFunction) (key : String) (check : Check) (emb : ErrorMessageBuilder) :
    JSFunction :=
  makeValidatorBuilder (plainFunction (addRuleFor b.call key check emb))

/-- The second variant's withSubValidator builder method. -/
def withSubValidator (b : JSFunction) (key : String) (rule : JSFunction) : JSFunction :=
  makeValidatorBuilder (plainFunction (addSubValidator b.call key rule.call))

end VarB

/-- One link of a builder chain: a whole-object rule installed with withRule,
or a per-field rule installed with withRuleFor. -/
inductive RuleSpec where
  | whole (check : Check) (errorMessageBuilder : ErrorMessageBuilder)
  | fieldRule (key : String) (check : Check) (errorMessageBuilder : ErrorMessageBuilder)

/-- Apply one chain method of the second variant to a builder. -/
def applyRuleSpec (b : JSFunction) : RuleSpec → JSFunction
  | .whole ck emb => VarB.withRule b ck emb
  | .fieldRule key ck emb => VarB.withRuleFor b key ck emb

/-- The validator produced by
`validatorFor().withRule/withRuleFor(r1)...withRule/withRuleFor(rn)` in the
second variant: each chain call wraps the previous composition as its base. -/
def buildChain (rules : List RuleSpec) : JSFunction :=
  rules.foldl applyRuleSpec (VarB.validatorFor none none)

/-- Whether one rule of a chain reports conformance on a subject, read off
from the source: a whole-object rule conforms iff its check passes, a field
rule iff the subject is object-shaped, owns the key and the check passes on
the field value. -/
def ruleConforms (x : JSValue) : RuleSpec → Bool
  | .whole ck _ => ck x
  | .fieldRule key ck _ =>
    isObjectShaped x && hasOwnPropertyPure x key && ck (getPropertyPure x key)

/-- The errors one rule of a chain appends on a subject at a path, read off
from the source: one entry per failing rule, except that a field rule
evaluated against a subject that is not object-shaped appends nothing. -/
def ruleErrors (x : JSValue) (path : Option String) : RuleSpec → List ValidationError
  | .whole ck emb => if ck x then [] else [⟨some (pathOrEmpty path), emb x⟩]
  | .fieldRule key ck emb =>
    if isObjectShaped x then
      if hasOwnPropertyPure x key then
        if ck (getPropertyPure x key) then []
        else [⟨some (joinObjectPaths [path, some key]), emb (getPropertyPure x key)⟩]
      else [⟨some (pathOrEmpty path), VarB.missingPropertyMessage x key⟩]
    else []

/-- Concatenated errors of a list of rules, first rule first. -/
def errorsOfRules (x : JSValue) (path : Option String) : List RuleSpec → List ValidationError
  | [] => []
  | r :: rest => ruleErrors x path r ++ errorsOfRules x path rest

/-- The errors a whole chain appends: evaluation runs the last-added rule
first, so the chain's appends are the rules' errors in reverse chain order. -/
def chainErrors (x : JSValue) (path : Option String) (rules : List RuleSpec) :
    List ValidationError :=
  errorsOfRules x path rules.reverse

/-- Appending a batch of errors to a collector when one was supplied. -/
def appendErrors (ec : ErrorCollector) (errs : List ValidationError) : ErrorCollector :=
  ec.map (fun l => l ++ errs)

/-- A descent chain of the first variant: each level installs the next level
as the sub-validator for one field key on top of the identity base, i.e.
`validatorFor().withRuleFor(k, inner)` at every level. -/
def nestValidator : List String → Validator → Validator
  | [], leaf => leaf
  | key :: keys, leaf =>
    VarA.addSubValidator (VarA.validatorFor none none).call key (nestValidator keys leaf)

/-- A subject shaped to descend a chain of field keys down to an innermost
value. -/
def nestSubject : List String → JSValue → JSValue
  | [], v => v
  | key :: keys, v => .vobj [(key, nestSubject keys v)]

/-- The dot-join, in descent order, of a root path argument followed by the
traversed field keys (an undefined root path contributes no segment; with no
keys the root path argument is recorded unchanged). -/
def descentPath (p : Option String) : List String → Option String
  | [] => p
  | key :: keys => some (joinStrings "." (p.toList ++ key :: keys))

/-- Apply one chain method of the first variant, in the (check,
messageBuilder) overloads. -/
def applyRuleSpecA (b : JSFunction) : RuleSpec → JSFunction
  | .whole ck emb => VarA.withRuleUsingCheck b ck emb
  | .fieldRule key ck emb => VarA.withRuleForUsingCheck b key ck emb

/-- The validator produced by
`validatorFor().withRule/withRuleFor(r1)...withRule/withRuleFor(rn)` in the
first variant. -/
def buildChainA (rules : List RuleSpec) : JSFunction :=
  rules.foldl applyRuleSpecA (VarA.validatorFor none none)

/-- Whether one rule of a chain reports conformance in the first variant,
read off from the source: no typeof test there — a field rule conforms iff
the subject owns the key and the check passes on the field value. -/
def ruleConformsA (x : JSValue) : RuleSpec → Bool
  | .whole ck _ => ck x
  | .fieldRule key ck _ => hasOwnPropertyPure x key && ck (getPropertyPure x key)

/-- The errors one rule appends in the first variant at a defined path, read
off from the source: one entry per failing rule, except a field rule whose
key the subject does not own, which appends nothing (the first variant's
addSubValidator records the missing key silently). -/
def ruleErrorsA (x : JSValue) (s : String) : RuleSpec → List ValidationError
  | .whole ck emb => if ck x then [] else [⟨some s, emb x⟩]
  | .fieldRule key ck emb =>
    if hasOwnPropertyPure x key then
      if ck (getPropertyPure x key) then []
      else [⟨some (joinObjectPaths [some s, some key]), emb (getPropertyPure x key)⟩]
    else []

/-- Concatenated first-variant errors of a list of rules, first rule
first. -/
def errorsOfRulesA (x : JSValue) (s : String) : List RuleSpec → List ValidationError
  | [] => []
  | r :: rest => ruleErrorsA x s r ++ errorsOfRulesA x s rest

/-- The errors a first-variant chain appends: last-added rule first. -/
def chainErrorsA (x : JSValue) (s : String) (rules : List RuleSpec) : List ValidationError :=
  errorsOfRulesA x s rules.reverse

/-- A check rejecting exactly the undefined value, used to exhibit an
optional-wrapped validator that rejects undefined. -/
def notUndefinedCheck : Check := fun x =>
  match x with
  | .vundefined => false
  | _ => true

/-- C8: the validator produced by validatorFor with no arguments returns
true for every input, every collector and every path, and appends nothing to
the collector — in both source variants. -/
theorem identity_validator_law (x : JSValue) (ec : ErrorCollector) (path : Option String) :
    (VarA.validatorFor none none).call x ec path = .ok (true, ec)
    ∧ (VarB.validatorFor none none).call x ec path = .ok (true, ec) :=
  ⟨rfl, rfl⟩

/-- C7: the optional wrapper returns true and appends no error exactly on
the null sentinel, and on every other subject returns exactly the wrapped
base validator's result with the same collector and path. -/
theorem optionValidator_law (base : Validator) (ec : ErrorCollector) (path : Option String) :
    (optionValidator base).call .vnull ec path = .ok (true, ec)
    ∧ ∀ x : JSValue, x ≠ .vnull → (optionValidator base).call x ec path = base x ec path := by
  refine ⟨rfl, fun x hx => ?_⟩
  cases x <;> first | rfl | exact absurd rfl hx

/-- Witness for C7 at a concrete base, subject, collector and path. -/
theorem optionValidator_law_witness :
    (optionValidator (VarB.validatorFor none none).call).call .vnull (some []) none
      = .ok (true, some [])
    ∧ (optionValidator (VarB.validatorFor none none).call).call (.vnum 5) (some []) none
      = (VarB.validatorFor none none).call (.vnum 5) (some []) none :=
  ⟨(optionValidator_law (VarB.validatorFor none none).call (some []) none).1,
   (optionValidator_law (VarB.validatorFor none none).call (some []) none).2 (.vnum 5)
     (fun h => JSValue.noConfusion h)⟩

/-- C10: the absent sentinel recognized by the optional wrapper is exactly
null — undefined (like every other non-null value) is delegated to the base
validator, so an optional-wrapped validator can reject undefined, as the
closing concrete instance shows. -/
theorem option_sentinel_is_null (base : Validator) (ec : ErrorCollector) (path : Option String) :
    (optionValidator base).call .vundefined ec path = base .vundefined ec path
    ∧ (∀ x : JSValue, x ≠ .vnull → (optionValidator base).call x ec path = base x ec path)
    ∧ (optionValidator
        (VarB.validatorFor (some notUndefinedCheck) (some (fun _ => "must not be undefined"))).call).call
        .vundefined (some []) none
      = .ok (false, some [⟨none, "must not be undefined"⟩]) := by
  refine ⟨rfl, fun x hx => ?_, rfl⟩
  cases x <;> first | rfl | exact absurd rfl hx

/-- Witness for C10 at a concrete base and non-null subject. -/
theorem option_sentinel_is_null_witness :
    (optionValidator (VarA.validatorFor none none).call).call .vundefined (some []) none
      = (VarA.validatorFor none none).call .vundefined (some []) none
    ∧ (optionValidator (VarA.validatorFor none none).call).call (.vnum 3) (some []) none
      = (VarA.validatorFor none none).call (.vnum 3) (some []) none :=
  ⟨(option_sentinel_is_null (VarA.validatorFor none none).call (some []) none).1,
   (option_sentinel_is_null (VarA.validatorFor none none).call (some []) none).2.1 (.vnum 3)
     (fun h => JSValue.noConfusion h)⟩

/-- C4: the second variant's validatorFor appends an entry to a supplied
collector even though the check returned true (here the verdict is true and
the collector still receives the message), while the first variant's
validatorFor appends nothing for a passing check.  This exhibits the
unconditional-append slip the claim rules out. -/
theorem validatorFor_appends_on_passing_check :
    (VarB.validatorFor (some (fun _ => true)) (some (fun _ => "msg"))).call
        (.vnum 1) (some []) none
      = .ok (true, some [⟨none, "msg"⟩])
    ∧ (VarA.validatorFor (some (fun _ => true)) (some (fun _ => "msg"))).call
        (.vnum 1) (some []) none
      = .ok (true, some []) :=
  ⟨rfl, rfl⟩

/-- C5: a composed validator with one field rule, applied to the subject
null, throws a TypeError instead of returning false: in the second variant
both withRuleFor (via hasOwnProperty) and withSubValidator (via reading
`x[key]`) hit a property access on null, because `typeof null` is
"object". -/
theorem field_rule_throws_on_null :
    (VarB.withRuleFor (VarB.validatorFor none none) "a" (fun _ => true) (fun _ => "m")).call
        .vnull (some []) none
      = .error "TypeError: Cannot read properties of null (reading hasOwnProperty)"
    ∧ (VarB.withSubValidator (VarB.validatorFor none none) "a" (VarB.validatorFor none none)).call
        .vnull (some []) none
      = .error "TypeError: Cannot read properties of null (reading a)" :=
  ⟨rfl, rfl⟩

/-- C6: in the first variant, a withRuleFor-derived validator applied to the
subject null — which lacks every own property, and with a predicate that
would have returned true — throws a TypeError instead of reporting
nonconformance; the subject undefined throws likewise. -/
theorem missing_field_throws_on_null :
    (VarA.withRuleForUsingCheck (VarA.validatorFor none none) "k"
        (fun _ => true) (fun _ => "m")).call .vnull (some []) none
      = .error "TypeError: Cannot read properties of null (reading hasOwnProperty)"
    ∧ (VarA.withRuleForUsingCheck (VarA.validatorFor none none) "k"
        (fun _ => true) (fun _ => "m")).call .vundefined (some []) none
      = .error "TypeError: Cannot read properties of undefined (reading hasOwnProperty)" :=
  ⟨rfl, rfl⟩

/-- C9 counterexample: the optional wrapper's output is a plain function
value with no withRule method attached, so not every combinator output
exposes the chaining operations. -/
theorem optionValidator_output_not_chainable :
    (optionValidator (VarA.validatorFor none none).call).hasWithRule = false :=
  rfl

/-- C9 amended: every validator produced by validatorFor, withRule or
withRuleFor (in either source variant) exposes the withRule and withRuleFor
chaining methods, but the optional wrapper returns a plain validator
exposing neither. -/
theorem builder_surface_exposure :
    (∀ c e, (VarA.validatorFor c e).hasWithRule = true
      ∧ (VarA.validatorFor c e).hasWithRuleFor = true)
    ∧ (∀ b r, (VarA.withRuleUsingValidator b r).hasWithRule = true
      ∧ (VarA.withRuleUsingValidator b r).hasWithRuleFor = true)
    ∧ (∀ b ck e, (VarA.withRuleUsingCheck b ck e).hasWithRule = true
      ∧ (VarA.withRuleUsingCheck b ck e).hasWithRuleFor = true)
    ∧ (∀ b k r, (VarA.withRuleForUsingValidator b k r).hasWithRule = true
      ∧ (VarA.withRuleForUsingValidator b k r).hasWithRuleFor = true)
    ∧ (∀ b k ck e, (VarA.withRuleForUsingCheck b k ck e).hasWithRule = true
      ∧ (VarA.withRuleForUsingCheck b k ck e).hasWithRuleFor = true)
    ∧ (∀ c e, (VarB.validatorFor c e).hasWithRule = true
      ∧ (VarB.validatorFor c e).hasWithRuleFor = true)
    ∧ (∀ b ck e, (VarB.withRule b ck e).hasWithRule = true
      ∧ (VarB.withRule b ck e).hasWithRuleFor = true)
    ∧ (∀ b k ck e, (VarB.withRuleFor b k ck e).hasWithRule = true
      ∧ (VarB.withRuleFor b k ck e).hasWithRuleFor = true)
    ∧ (∀ v, (optionValidator v).hasWithRule = false
      ∧ (optionValidator v).hasWithRuleFor = false) := by
  refine ⟨fun c e => ⟨?_, ?_⟩, fun b r => ⟨rfl, rfl⟩, fun b ck e => ⟨rfl, rfl⟩,
    fun b k r => ⟨rfl, rfl⟩, fun b k ck e => ⟨rfl, rfl⟩, fun c e => ⟨?_, ?_⟩,
    fun b ck e => ⟨rfl, rfl⟩, fun b k ck e => ⟨rfl, rfl⟩, fun v => ⟨rfl, rfl⟩⟩
  all_goals cases c <;> cases e <;> rfl

lemma hasOwnProperty_eq_ok (x : JSValue) (key : String) (h1 : x ≠ JSValue.vnull)
    (h2 : x ≠ JSValue.vundefined) :
    hasOwnProperty x key = .ok (hasOwnPropertyPure x key) := by
  cases x <;> first | rfl | exact absurd rfl h1 | exact absurd rfl h2

lemma getProperty_eq_ok (x : JSValue) (key : String) (h1 : x ≠ JSValue.vnull)
    (h2 : x ≠ JSValue.vundefined) :
    getProperty x key = .ok (getPropertyPure x key) := by
  cases x <;> first | rfl | exact absurd rfl h1 | exact absurd rfl h2

/-- C3 counterexample: a withRuleFor-derived validator applied to the
non-object subject 127 with a sink reports the rule nonconforming but leaves
the sink empty, where the claim requires exactly one error describing the
missing property to be appended. -/
theorem withRuleFor_nonobject_counterexample :
    (VarB.withRuleFor (VarB.validatorFor none none) "a"
        (fun _ => false) (fun _ => "bad")).call (.vnum 127) (some []) none
      = .ok (false, some []) :=
  rfl

/-- C3 amended, covering both source variants of withRuleFor.  Second
variant: for a non-null object subject lacking the key the rule is
nonconforming, exactly one missing-property error is appended (when a sink
is present) before the base runs, and the field is never read; for a subject
that is not object-shaped the rule is nonconforming with no error appended
and no field read; the subject null throws a TypeError.  First variant (both
the check and the sub-validator overloads): for every subject other than
null and undefined that lacks the key as an own property — object-shaped or
not — the rule is nonconforming, no error is appended, and the field is
never read; the subjects null and undefined throw a TypeError. -/
theorem withRuleFor_missing_property_behavior (b : JSFunction) (key : String) (ck : Check)
    (emb : ErrorMessageBuilder) (ec : ErrorCollector) (path : Option String) :
    (∀ fields, hasOwnPropertyPure (.vobj fields) key = false →
      (VarB.withRuleFor b key ck emb).call (.vobj fields) ec path
        = Except.map (fun r => (false, r.2))
            (b.call (.vobj fields)
              (pushError ec ⟨some (pathOrEmpty path),
                VarB.missingPropertyMessage (.vobj fields) key⟩) path))
    ∧ (∀ x : JSValue, isObjectShaped x = false →
      (VarB.withRuleFor b key ck emb).call x ec path
        = Except.map (fun r => (false, r.2)) (b.call x ec path))
    ∧ (VarB.withRuleFor b key ck emb).call .vnull ec path
        = .error "TypeError: Cannot read properties of null (reading hasOwnProperty)"
    ∧ (∀ x : JSValue, x ≠ JSValue.vnull → x ≠ JSValue.vundefined →
        hasOwnPropertyPure x key = false →
      (VarA.withRuleForUsingCheck b key ck emb).call x ec path
        = Except.map (fun r => (false, r.2)) (b.call x ec path))
    ∧ (∀ (rule : JSFunction) (x : JSValue), x ≠ JSValue.vnull → x ≠ JSValue.vundefined →
        hasOwnPropertyPure x key = false →
      (VarA.withRuleForUsingValidator b key rule).call x ec path
        = Except.map (fun r => (false, r.2)) (b.call x ec path))
    ∧ (VarA.withRuleForUsingCheck b key ck emb).call .vnull ec path
        = .error "TypeError: Cannot read properties of null (reading hasOwnProperty)"
    ∧ (VarA.withRuleForUsingCheck b key ck emb).call .vundefined ec path
        = .error "TypeError: Cannot read properties of undefined (reading hasOwnProperty)" := by
  refine ⟨fun fields h => ?_, fun x h => ?_, rfl, fun x h1 h2 h => ?_,
    fun rule x h1 h2 h => ?_, rfl, rfl⟩
  · show VarB.addRuleFor b.call key ck emb (.vobj fields) ec path = _
    simp only [VarB.addRuleFor, hasOwnProperty, isObjectShaped, typeofString, h]
    cases hb : b.call (.vobj fields)
        (pushError ec ⟨some (pathOrEmpty path),
          VarB.missingPropertyMessage (.vobj fields) key⟩) path <;>
      simp [hb, Except.map]
  · show VarB.addRuleFor b.call key ck emb x ec path = _
    simp only [VarB.addRuleFor, h]
    cases hb : b.call x ec path <;> simp [hb, Except.map]
  · show VarA.addSubValidator b.call key
        (VarA.validatorFor (some ck) (some emb)).call x ec path = _
    simp only [VarA.addSubValidator, hasOwnProperty_eq_ok x key h1 h2, h]
    cases hb : b.call x ec path <;> simp [hb, Except.map]
  · show VarA.addSubValidator b.call key rule.call x ec path = _
    simp only [VarA.addSubValidator, hasOwnProperty_eq_ok x key h1 h2, h]
    cases hb : b.call x ec path <;> simp [hb, Except.map]

/-- Witness for C3's amended theorem: a concrete object lacking the key and
a concrete non-object subject, for each variant's withRuleFor. -/
theorem withRuleFor_missing_property_behavior_witness :
    (VarB.withRuleFor (VarB.validatorFor none none) "a"
        (fun _ => true) (fun _ => "m")).call (.vobj [("b", .vnum 1)]) (some []) none
      = Except.map (fun r => (false, r.2))
          ((VarB.validatorFor none none).call (.vobj [("b", .vnum 1)])
            (pushError (some []) ⟨some (pathOrEmpty none),
              VarB.missingPropertyMessage (.vobj [("b", .vnum 1)]) "a"⟩) none)
    ∧ (VarB.withRuleFor (VarB.validatorFor none none) "a"
        (fun _ => true) (fun _ => "m")).call (.vnum 7) (some []) none
      = Except.map (fun r => (false, r.2))
          ((VarB.validatorFor none none).call (.vnum 7) (some []) none)
    ∧ (VarA.withRuleForUsingCheck (VarB.validatorFor none none) "a"
        (fun _ => true) (fun _ => "m")).call (.vobj [("b", .vnum 1)]) (some []) none
      = Except.map (fun r => (false, r.2))
          ((VarB.validatorFor none none).call (.vobj [("b", .vnum 1)]) (some []) none)
    ∧ (VarA.withRuleForUsingValidator (VarB.validatorFor none none) "a"
        (VarB.validatorFor none none)).call (.vnum 7) (some []) none
      = Except.map (fun r => (false, r.2))
          ((VarB.validatorFor none none).call (.vnum 7) (some []) none) :=
  ⟨(withRuleFor_missing_property_behavior (VarB.validatorFor none none) "a"
      (fun _ => true) (fun _ => "m") (some []) none).1 [("b", .vnum 1)] rfl,
   (withRuleFor_missing_property_behavior (VarB.validatorFor none none) "a"
      (fun _ => true) (fun _ => "m") (some []) none).2.1 (.vnum 7) rfl,
   (withRuleFor_missing_property_behavior (VarB.validatorFor none none) "a"
      (fun _ => true) (fun _ => "m") (some []) none).2.2.2.1 (.vobj [("b", .vnum 1)])
     (fun h => JSValue.noConfusion h) (fun h => JSValue.noConfusion h) rfl,
   (withRuleFor_missing_property_behavior (VarB.validatorFor none none) "a"
      (fun _ => true) (fun _ => "m") (some []) none).2.2.2.2.1 (VarB.validatorFor none none)
     (.vnum 7) (fun h => JSValue.noConfusion h) (fun h => JSValue.noConfusion h) rfl⟩

lemma joinObjectPaths_pair (p : Option String) (k : String) :
    joinObjectPaths [p, some k] = joinStrings "." (p.toList ++ [k]) := by
  cases p <;> rfl

lemma joinStrings_cons_cons (sep a b : String) (t : List String) :
    joinStrings sep (a :: b :: t) = a ++ sep ++ joinStrings sep (b :: t) :=
  rfl

lemma joinStrings_append (l m : List String) (hl : l ≠ []) (hm : m ≠ []) :
    joinStrings "." (l ++ m) = joinStrings "." l ++ "." ++ joinStrings "." m := by
  induction l with
  | nil => exact absurd rfl hl
  | cons a t ih =>
    cases t with
    | nil =>
      cases m with
      | nil => exact absurd rfl hm
      | cons c t' => rfl
    | cons b t' =>
      rw [List.cons_append, List.cons_append, joinStrings_cons_cons,
        ← List.cons_append, ih (by simp), joinStrings_cons_cons]
      simp [String.append_assoc]

lemma descentPath_step (p : Option String) (k : String) (ks : List String) :
    descentPath (some (joinObjectPaths [p, some k])) ks = descentPath p (k :: ks) := by
  cases ks with
  | nil => simp [descentPath, joinObjectPaths_pair]
  | cons k' ks' =>
    simp only [descentPath, joinObjectPaths_pair, Option.toList_some]
    rw [List.singleton_append, joinStrings_cons_cons,
      ← joinStrings_append (p.toList ++ [k]) (k' :: ks') (by simp) (by simp)]
    simp

lemma nestValidator_run (ks : List String) (leaf : Validator) (v : JSValue) :
    ∀ (ec : ErrorCollector) (p : Option String),
      nestValidator ks leaf (nestSubject ks v) ec p = leaf v ec (descentPath p ks) := by
  induction ks with
  | nil => intro ec p; rfl
  | cons k ks ih =>
    intro ec p
    show VarA.addSubValidator (VarA.validatorFor none none).call k (nestValidator ks leaf)
        (.vobj [(k, nestSubject ks v)]) ec p = _
    simp only [VarA.addSubValidator, hasOwnProperty, getProperty, hasOwnPropertyPure,
      getPropertyPure, lookupField, beq_self_eq_true, if_true, Option.isSome_some,
      Option.getD_some]
    rw [ih, descentPath_step]
    cases hleaf : leaf v ec (descentPath p (k :: ks)) with
    | error e => rfl
    | ok r =>
      obtain ⟨rb, rec⟩ := r
      simp [VarA.validatorFor, VarA.makeValidatorBuilder, plainFunction]

/-- C2: for a descent chain of sub-validators over field keys, with a field
rule at the bottom whose check rejects the innermost value, the single error
appended carries exactly the dot-join, in descent order, of the root call's
path argument followed by the traversed field keys, at arbitrary nesting
depth. -/
theorem nested_path_prefix (ks : List String) (ck : Check) (emb : ErrorMessageBuilder)
    (v : JSValue) (ec : List ValidationError) (p : Option String) (h : ck v = false) :
    nestValidator ks (VarA.validatorFor (some ck) (some emb)).call
        (nestSubject ks v) (some ec) p
      = .ok (false, some (ec ++ [⟨descentPath p ks, emb v⟩])) := by
  rw [nestValidator_run]
  simp [VarA.validatorFor, VarA.makeValidatorBuilder, plainFunction, h, pushError]

/-- Witness for C2: two nesting levels under root path "spaceship" record
the error at "spaceship.engines.type". -/
theorem nested_path_prefix_witness :
    nestValidator ["engines", "type"]
        (VarA.validatorFor (some (fun _ => false)) (some (fun _ => "bad engine"))).call
        (nestSubject ["engines", "type"] (.vstr "Reactionless")) (some []) (some "spaceship")
      = .ok (false, some [⟨some "spaceship.engines.type", "bad engine"⟩]) :=
  nested_path_prefix ["engines", "type"] (fun _ => false) (fun _ => "bad engine")
    (.vstr "Reactionless") [] (some "spaceship") rfl

lemma appendErrors_nil (ec : ErrorCollector) : appendErrors ec [] = ec := by
  cases ec <;> simp [appendErrors]

lemma appendErrors_push (ec : ErrorCollector) (e : ValidationError)
    (errs : List ValidationError) :
    appendErrors (pushError ec e) errs = appendErrors ec (e :: errs) := by
  cases ec <;> simp [appendErrors, pushError]

lemma chainErrors_snoc (x : JSValue) (path : Option String) (l : List RuleSpec) (r : RuleSpec) :
    chainErrors x path (l ++ [r]) = ruleErrors x path r ++ chainErrors x path l := by
  simp [chainErrors, errorsOfRules]

lemma buildChain_snoc (l : List RuleSpec) (r : RuleSpec) :
    buildChain (l ++ [r]) = applyRuleSpec (buildChain l) r := by
  simp [buildChain, List.foldl_append]

/-- Full characterization of a second-variant builder chain on any non-null
subject: the verdict is the conjunction of every rule's conformance, and the
collector gains exactly the failing rules' errors, last-added rule first. -/
lemma buildChain_run (rules : List RuleSpec) (x : JSValue) (hx : x ≠ JSValue.vnull) :
    ∀ (ec : ErrorCollector) (path : Option String),
      (buildChain rules).call x ec path
        = .ok (rules.all (ruleConforms x), appendErrors ec (chainErrors x path rules)) := by
  induction rules using List.reverseRecOn with
  | nil =>
    intro ec path
    show Except.ok (true, ec) = _
    rw [show chainErrors x path ([] : List RuleSpec) = [] from rfl, appendErrors_nil]
    rfl
  | append_singleton l r ih =>
    intro ec path
    rw [buildChain_snoc]
    cases r with
    | whole ck emb =>
      show VarB.addRule (buildChain l).call ck emb x ec path = _
      simp only [VarB.addRule]
      cases hcv : ck x with
      | false =>
        rw [if_neg (by simp), ih, chainErrors_snoc, appendErrors_push]
        simp [ruleErrors, ruleConforms, hcv]
      | true =>
        rw [if_pos rfl, ih, chainErrors_snoc]
        simp [ruleErrors, ruleConforms, hcv]
    | fieldRule key ck emb =>
      show VarB.addRuleFor (buildChain l).call key ck emb x ec path = _
      cases x
      case vnull => exact absurd rfl hx
      case vobj fields =>
        simp only [VarB.addRuleFor, hasOwnProperty, getProperty, isObjectShaped, typeofString]
        cases hok : hasOwnPropertyPure (.vobj fields) key with
        | false =>
          simp only [Bool.false_eq_true, if_false, reduceIte, ih, chainErrors_snoc]
          simp [ruleErrors, ruleConforms, isObjectShaped, typeofString, hok, appendErrors_push]
        | true =>
          cases hcv : ck (getPropertyPure (.vobj fields) key) with
          | false =>
            simp only [reduceIte, hcv, Bool.false_eq_true, if_false, ih, chainErrors_snoc]
            simp [ruleErrors, ruleConforms, isObjectShaped, typeofString, hok, hcv,
              appendErrors_push]
          | true =>
            simp only [reduceIte, hcv, if_true, ih, chainErrors_snoc]
            simp [ruleErrors, ruleConforms, isObjectShaped, typeofString, hok, hcv]
      all_goals
        simp [VarB.addRuleFor, isObjectShaped, typeofString, ih, chainErrors_snoc,
          ruleErrors, ruleConforms, List.all_append]

lemma ruleErrors_length_obj (fields : List (String × JSValue)) (path : Option String)
    (r : RuleSpec) :
    (ruleErrors (.vobj fields) path r).length
      = if ruleConforms (.vobj fields) r then 0 else 1 := by
  cases r with
  | whole ck emb =>
    cases h : ck (.vobj fields) <;> simp [ruleErrors, ruleConforms, h]
  | fieldRule key ck emb =>
    cases h1 : hasOwnPropertyPure (.vobj fields) key with
    | false => simp [ruleErrors, ruleConforms, isObjectShaped, typeofString, h1]
    | true =>
      cases h2 : ck (getPropertyPure (.vobj fields) key) <;>
        simp [ruleErrors, ruleConforms, isObjectShaped, typeofString, h1, h2]

lemma errorsOfRules_length_obj (fields : List (String × JSValue)) (path : Option String)
    (l : List RuleSpec) :
    (errorsOfRules (.vobj fields) path l).length
      = (l.filter (fun r => !(ruleConforms (.vobj fields) r))).length := by
  induction l with
  | nil => rfl
  | cons r t ih =>
    simp only [errorsOfRules, List.length_append, ruleErrors_length_obj, ih, List.filter]
    cases h : ruleConforms (.vobj fields) r
    · simp [h]
      omega
    · simp [h]

lemma chainErrors_length_obj (fields : List (String × JSValue)) (path : Option String)
    (rules : List RuleSpec) :
    (chainErrors (.vobj fields) path rules).length
      = (rules.filter (fun r => !(ruleConforms (.vobj fields) r))).length := by
  rw [chainErrors, errorsOfRules_length_obj, List.filter_reverse, List.length_reverse]

lemma chainErrorsA_snoc (x : JSValue) (s : String) (l : List RuleSpec) (r : RuleSpec) :
    chainErrorsA x s (l ++ [r]) = ruleErrorsA x s r ++ chainErrorsA x s l := by
  simp [chainErrorsA, errorsOfRulesA]

lemma buildChainA_snoc (l : List RuleSpec) (r : RuleSpec) :
    buildChainA (l ++ [r]) = applyRuleSpecA (buildChainA l) r := by
  simp [buildChainA, List.foldl_append]

/-- Full characterization of a first-variant builder chain on any subject
other than null and undefined, at a defined path: the verdict is the
conjunction of every rule's conformance, and the collector gains exactly the
errors of the failing rules — one entry each, except field rules whose key
the subject does not own, which contribute none — last-added rule first. -/
lemma buildChainA_run (rules : List RuleSpec) (x : JSValue) (hx1 : x ≠ JSValue.vnull)
    (hx2 : x ≠ JSValue.vundefined) :
    ∀ (ec : ErrorCollector) (s : String),
      (buildChainA rules).call x ec (some s)
        = .ok (rules.all (ruleConformsA x), appendErrors ec (chainErrorsA x s rules)) := by
  induction rules using List.reverseRecOn with
  | nil =>
    intro ec s
    show Except.ok (true, ec) = _
    rw [show chainErrorsA x s ([] : List RuleSpec) = [] from rfl, appendErrors_nil]
    rfl
  | append_singleton l r ih =>
    intro ec s
    rw [buildChainA_snoc]
    cases r with
    | whole ck emb =>
      show VarA.addRule (buildChainA l).call
          (VarA.validatorFor (some ck) (some emb)).call x ec (some s) = _
      simp only [VarA.addRule, VarA.validatorFor, VarA.makeValidatorBuilder, plainFunction,
        pathOrEmpty, Option.getD_some]
      cases hcv : ck x with
      | false =>
        rw [if_neg (by simp), ih, chainErrorsA_snoc, appendErrors_push]
        simp [ruleErrorsA, ruleConformsA, hcv]
      | true =>
        rw [if_pos rfl, ih, chainErrorsA_snoc]
        simp [ruleErrorsA, ruleConformsA, hcv]
    | fieldRule key ck emb =>
      show VarA.addSubValidator (buildChainA l).call key
          (VarA.validatorFor (some ck) (some emb)).call x ec (some s) = _
      simp only [VarA.addSubValidator, hasOwnProperty_eq_ok x key hx1 hx2,
        getProperty_eq_ok x key hx1 hx2, VarA.validatorFor, VarA.makeValidatorBuilder,
        plainFunction]
      cases hok : hasOwnPropertyPure x key with
      | false =>
        simp only [hok, ih, chainErrorsA_snoc]
        simp [ruleErrorsA, ruleConformsA, hok]
      | true =>
        cases hcv : ck (getPropertyPure x key) with
        | false =>
          simp only [hok, hcv, ih, chainErrorsA_snoc]
          simp [ruleErrorsA, ruleConformsA, hok, hcv, appendErrors_push]
        | true =>
          simp only [hok, hcv, ih, chainErrorsA_snoc]
          simp [ruleErrorsA, ruleConformsA, hok, hcv]

/-- C1 counterexample: a chain of one withRuleFor rule applied to the
non-object subject 127 with a collector supplied: the single rule fails (the
chain returns false) yet the collector stays empty, where the claim requires
exactly one entry. -/
theorem chain_conjunction_counterexample :
    (buildChain [RuleSpec.fieldRule "a" (fun _ => false) (fun _ => "bad")]).call
        (.vnum 127) (some []) none
      = .ok (false, some []) :=
  rfl

/-- C1 amended, covering both source variants.  Second variant: on every
non-null subject a chain composed via withRule/withRuleFor returns true iff
every rule (and the identity base) conforms, every rule executes with no
short-circuiting — the collector gains the errors of all failing rules,
last-added first — and, when the subject is a non-null object, each failing
rule contributes exactly one entry, so with all n rules failing the
collector gains exactly n entries; field rules failing against a non-object
subject contribute no entry, and a null subject makes a field rule throw.
First variant: on every subject other than null and undefined, at any
defined root path, the same conjunction and no-short-circuit law holds, with
each failing rule appending exactly one entry except field rules whose key
the subject does not own, which append none; a chain containing a field
rule throws on both null and undefined. -/
theorem chain_conjunction_law (rules : List RuleSpec) (x : JSValue) (ec : ErrorCollector)
    (path : Option String) (hx : x ≠ JSValue.vnull) :
    (buildChain rules).call x ec path
      = .ok (rules.all (ruleConforms x), appendErrors ec (chainErrors x path rules))
    ∧ (∀ fields, x = JSValue.vobj fields →
        (chainErrors x path rules).length
          = (rules.filter (fun r => !(ruleConforms x r))).length)
    ∧ (∀ s : String, x ≠ JSValue.vundefined →
        (buildChainA rules).call x ec (some s)
          = .ok (rules.all (ruleConformsA x), appendErrors ec (chainErrorsA x s rules)))
    ∧ (buildChainA [RuleSpec.fieldRule "k" (fun _ => true) (fun _ => "m")]).call
        .vnull ec path
      = .error "TypeError: Cannot read properties of null (reading hasOwnProperty)"
    ∧ (buildChainA [RuleSpec.fieldRule "k" (fun _ => true) (fun _ => "m")]).call
        .vundefined ec path
      = .error "TypeError: Cannot read properties of undefined (reading hasOwnProperty)" := by
  refine ⟨buildChain_run rules x hx ec path, fun fields hf => ?_,
    fun s hu => buildChainA_run rules x hx hu ec s, rfl, rfl⟩
  subst hf
  exact chainErrors_length_obj fields path rules

/-- Witness for C1's amended theorem: a two-rule chain in which both rules
fail on the empty object.  In the second variant the collector gains exactly
two entries, last-added rule first; in the first variant the failing
missing-key field rule appends nothing, so only the whole-object rule's
entry arrives. -/
theorem chain_conjunction_law_witness :
    (buildChain [RuleSpec.whole (fun _ => false) (fun _ => "e1"),
        RuleSpec.fieldRule "a" (fun _ => false) (fun _ => "e2")]).call
        (.vobj []) (some []) none
      = .ok (false, some [⟨some "", VarB.missingPropertyMessage (.vobj []) "a"⟩,
          ⟨some "", "e1"⟩])
    ∧ (chainErrors (.vobj []) none
        [RuleSpec.whole (fun _ => false) (fun _ => "e1"),
         RuleSpec.fieldRule "a" (fun _ => false) (fun _ => "e2")]).length = 2
    ∧ (buildChainA [RuleSpec.whole (fun _ => false) (fun _ => "e1"),
        RuleSpec.fieldRule "a" (fun _ => false) (fun _ => "e2")]).call
        (.vobj []) (some []) (some "p")
      = .ok (false, some [⟨some "p", "e1"⟩]) := by
  have h := chain_conjunction_law
    [RuleSpec.whole (fun _ => false) (fun _ => "e1"),
     RuleSpec.fieldRule "a" (fun _ => false) (fun _ => "e2")]
    (.vobj []) (some []) none (fun hh => JSValue.noConfusion hh)
  exact ⟨h.1, (h.2.1 [] rfl).trans rfl, h.2.2.1 "p" (fun hh => JSValue.noConfusion hh)⟩

end Validitype
